import Mathlib

/-!
Verification of Blender source fragments:
a shallow embedding of the Vulkan render-graph node kernel
(`source/blender/gpu/vulkan/render_graph/nodes/vk_node_info.hh`),
the generic array utilities (`BLI_array_utils`), and the outliner
library tree element (`tree_element_id_library.cc`), with theorems
settling the specified properties.
-/

set_option maxHeartbeats 1000000

namespace Blender

/-- Type of nodes of the render graph.
Embeds `enum class VKNodeType` from `vk_node_info.hh` (all 24 tags,
declaration order preserved). -/
inductive VKNodeType where
  | UNUSED
  | BEGIN_QUERY
  | BEGIN_RENDERING
  | BLIT_IMAGE
  | CLEAR_ATTACHMENTS
  | CLEAR_COLOR_IMAGE
  | CLEAR_DEPTH_STENCIL_IMAGE
  | COPY_BUFFER
  | COPY_IMAGE
  | COPY_IMAGE_TO_BUFFER
  | COPY_BUFFER_TO_IMAGE
  | DISPATCH
  | DISPATCH_INDIRECT
  | DRAW
  | DRAW_INDEXED
  | DRAW_INDEXED_INDIRECT
  | DRAW_INDIRECT
  | END_QUERY
  | END_RENDERING
  | FILL_BUFFER
  | RESET_QUERY_POOL
  | SYNCHRONIZATION
  | UPDATE_BUFFER
  | UPDATE_MIPMAPS
deriving DecidableEq, Fintype, Repr

/-- Embeds `operator<<(std::ostream &, const VKNodeType)` from
`vk_node_info.hh`: the textual name emitted for each tag of the
enumeration (the C++ switch is exhaustive and each case streams the
literal shown here). -/
def nodeTypeName : VKNodeType → String
  | .UNUSED => "UNUSED"
  | .BEGIN_QUERY => "BEGIN_QUERY"
  | .BEGIN_RENDERING => "BEGIN_RENDERING"
  | .END_QUERY => "END_QUERY"
  | .END_RENDERING => "END_RENDERING"
  | .CLEAR_ATTACHMENTS => "CLEAR_ATTACHMENTS"
  | .CLEAR_COLOR_IMAGE => "CLEAR_COLOR_IMAGE"
  | .CLEAR_DEPTH_STENCIL_IMAGE => "CLEAR_DEPTH_STENCIL_IMAGE"
  | .FILL_BUFFER => "FILL_BUFFER"
  | .COPY_BUFFER => "COPY_BUFFER"
  | .COPY_IMAGE => "COPY_IMAGE"
  | .COPY_IMAGE_TO_BUFFER => "COPY_IMAGE_TO_BUFFER"
  | .COPY_BUFFER_TO_IMAGE => "COPY_BUFFER_TO_IMAGE"
  | .BLIT_IMAGE => "BLIT_IMAGE"
  | .DISPATCH => "DISPATCH"
  | .DISPATCH_INDIRECT => "DISPATCH_INDIRECT"
  | .DRAW => "DRAW"
  | .DRAW_INDEXED => "DRAW_INDEXED"
  | .DRAW_INDEXED_INDIRECT => "DRAW_INDEXED_INDIRECT"
  | .DRAW_INDIRECT => "DRAW_INDIRECT"
  | .RESET_QUERY_POOL => "RESET_QUERY_POOL"
  | .SYNCHRONIZATION => "SYNCHRONIZATION"
  | .UPDATE_BUFFER => "UPDATE_BUFFER"
  | .UPDATE_MIPMAPS => "UPDATE_MIPMAPS"

/-- All tags of the node type enumeration, in declaration order. -/
def allNodeTypes : List VKNodeType :=
  [.UNUSED, .BEGIN_QUERY, .BEGIN_RENDERING, .BLIT_IMAGE, .CLEAR_ATTACHMENTS,
   .CLEAR_COLOR_IMAGE, .CLEAR_DEPTH_STENCIL_IMAGE, .COPY_BUFFER, .COPY_IMAGE,
   .COPY_IMAGE_TO_BUFFER, .COPY_BUFFER_TO_IMAGE, .DISPATCH, .DISPATCH_INDIRECT,
   .DRAW, .DRAW_INDEXED, .DRAW_INDEXED_INDIRECT, .DRAW_INDIRECT, .END_QUERY,
   .END_RENDERING, .FILL_BUFFER, .RESET_QUERY_POOL, .SYNCHRONIZATION,
   .UPDATE_BUFFER, .UPDATE_MIPMAPS]

/-- Embeds `node_type_is_within_rendering` from `vk_node_info.hh`:
`ELEM(node_type, CLEAR_ATTACHMENTS, DRAW, DRAW_INDEXED,
DRAW_INDEXED_INDIRECT, DRAW_INDIRECT)`. -/
def node_type_is_within_rendering (node_type : VKNodeType) : Bool :=
  node_type == .CLEAR_ATTACHMENTS || node_type == .DRAW ||
  node_type == .DRAW_INDEXED || node_type == .DRAW_INDEXED_INDIRECT ||
  node_type == .DRAW_INDIRECT

/-- Embeds `node_type_is_rendering` from `vk_node_info.hh`:
`ELEM(node_type, BEGIN_RENDERING, END_RENDERING) ||
node_type_is_within_rendering(node_type)`. -/
def node_type_is_rendering (node_type : VKNodeType) : Bool :=
  (node_type == .BEGIN_RENDERING || node_type == .END_RENDERING) ||
  node_type_is_within_rendering node_type

/-- Per-resource record of the Resource State Tracker: pipeline stage(s) that
last accessed the resource, access mask, and, for images, current layout.
Modelled from the spec: `vk_resource_state_tracker.hh` is not in src, only
its forward declaration sites are; the spec (§2, §4.2) fixes the entry shape. -/
structure ResourceStateEntry where
  stage : Nat
  access : Nat
  layout : Option Nat
deriving DecidableEq, Repr

/-- Modelled from the spec: the Resource State Tracker
(`VKResourceStateTracker`, not in src) is a registry mapping each resource
handle to its last known access; we model it as an association list keyed by
the opaque resource id. -/
def VKResourceStateTracker := List (Nat × ResourceStateEntry)

/-- Modelled from the spec (§4.2): `current_state(resource_id)` is a
non-mutating query of the tracker entry for a resource. -/
def current_state (tracker : VKResourceStateTracker) (resource_id : Nat) :
    Option ResourceStateEntry :=
  (tracker.find? (fun e => e.1 == resource_id)).map Prod.snd

/-- Modelled from the spec (§4.2): `record_access(resource_id, stage, access,
[layout])` updates or inserts the entry and returns the previous entry
(`none` standing for the empty/initial sentinel on first access). -/
def record_access (tracker : VKResourceStateTracker) (resource_id : Nat)
    (entry : ResourceStateEntry) :
    Option ResourceStateEntry × VKResourceStateTracker :=
  (current_state tracker resource_id,
   (resource_id, entry) :: tracker.filter (fun e => e.1 != resource_id))

/-- Resource category of a dependency link. Modelled from the spec (§3):
buffer / image / other. The C++ `VKResourceType` lives in a header not in
src. -/
inductive VKResourceType where
  | buffer
  | image
  | other
deriving DecidableEq, Repr

/-- Access kind of a dependency link (read or write), modelled from the
spec (§3). -/
inductive VKAccessKind where
  | read
  | write
deriving DecidableEq, Repr

/-- Dependency Link: (resource id, access kind, resource category), modelled
from the spec (§3). -/
structure VKDependencyLink where
  resource_id : Nat
  kind : VKAccessKind
  category : VKResourceType
deriving DecidableEq, Repr

/-- Modelled from the spec: Vulkan stage/access flag constants referenced by
the transfer-family descriptors (`vk_common.hh` is not in src); the values
are the Vulkan ones, but the proofs depend only on them being fixed
constants. -/
def VK_PIPELINE_STAGE_TRANSFER_BIT : Nat := 4096

/-- Modelled from the spec: Vulkan transfer-read access mask bit. -/
def VK_ACCESS_TRANSFER_READ_BIT : Nat := 2048

/-- Modelled from the spec: Vulkan transfer-write access mask bit. -/
def VK_ACCESS_TRANSFER_WRITE_BIT : Nat := 4096

/-- Modelled from the spec: create-info values for the per-type descriptors
pinned down by the spec's scenarios (Scenario A: COPY_BUFFER with a source
and destination buffer; Scenario D: FILL_BUFFER on a buffer). The per-type
descriptor headers are not in src; `VKNodeInfo::build_links` is declared
there as a pure virtual. -/
inductive ModelledCreateInfo where
  | copyBuffer (src_buffer dst_buffer size : Nat)
  | fillBuffer (dst_buffer size data : Nat)
deriving DecidableEq, Repr

/-- Modelled from the spec: a single resource access declared by a
descriptor's link extraction — the link fields plus the tracker entry the
extraction establishes for the resource. -/
structure DeclaredAccess where
  resource_id : Nat
  kind : VKAccessKind
  category : VKResourceType
  stage : Nat
  mask : Nat
  layout : Option Nat
deriving DecidableEq, Repr

/-- The tracker entry established by a declared access. -/
def declared_entry (a : DeclaredAccess) : ResourceStateEntry :=
  ⟨a.stage, a.mask, a.layout⟩

/-- Modelled from the spec: the accesses declared by the modelled
descriptors (Scenario A: COPY_BUFFER reads the source buffer and writes the
destination buffer at the transfer stage; Scenario D: FILL_BUFFER writes its
buffer at the transfer stage). -/
def declared_accesses : ModelledCreateInfo → List DeclaredAccess
  | .copyBuffer s d _ =>
      [⟨s, .read, .buffer, VK_PIPELINE_STAGE_TRANSFER_BIT,
        VK_ACCESS_TRANSFER_READ_BIT, none⟩,
       ⟨d, .write, .buffer, VK_PIPELINE_STAGE_TRANSFER_BIT,
        VK_ACCESS_TRANSFER_WRITE_BIT, none⟩]
  | .fillBuffer d _ _ =>
      [⟨d, .write, .buffer, VK_PIPELINE_STAGE_TRANSFER_BIT,
        VK_ACCESS_TRANSFER_WRITE_BIT, none⟩]

/-- Modelled from the spec: the resource category set statically declared by
each modelled descriptor (`VKNodeInfo::resource_usages`); both modelled
descriptors are buffer-only. -/
def resource_usages : ModelledCreateInfo → List VKResourceType
  | .copyBuffer .. => [.buffer]
  | .fillBuffer .. => [.buffer]

/-- Modelled from the spec: `VKNodeInfo::build_links` (pure virtual in src)
enumerates every resource the command reads or writes, records each as a
Dependency Link, and simultaneously updates the Resource State Tracker entry
for that resource to this node's access. -/
def build_links (resources : VKResourceStateTracker)
    (create_info : ModelledCreateInfo) :
    List VKDependencyLink × VKResourceStateTracker :=
  ((declared_accesses create_info).map fun a =>
      ⟨a.resource_id, a.kind, a.category⟩,
   (declared_accesses create_info).foldl
     (fun t a => (record_access t a.resource_id (declared_entry a)).2)
     resources)

/-- Modelled node-data payloads of the modelled descriptors. -/
inductive ModelledNodeData where
  | copyBufferData (src_buffer dst_buffer size : Nat)
  | fillBufferData (dst_buffer size data : Nat)
deriving DecidableEq, Repr

/-- Modelled from the spec: `VKNodeInfo::set_node_data` is only declared in
src (a template member without a body there); the spec (§4.1) fixes its
contract: a pure, deterministic transform of the create-info into the stored
node data that neither touches the Resource State Tracker nor emits
commands. We give it a state-passing signature over the tracker together
with a list of emitted commands, so that purity is a provable property of
its result rather than a notational assumption. -/
def set_node_data (create_info : ModelledCreateInfo)
    (resources : VKResourceStateTracker) :
    ModelledNodeData × VKResourceStateTracker × List String :=
  (match create_info with
   | .copyBuffer s d n => .copyBufferData s d n
   | .fillBuffer d n v => .fillBufferData d n v,
   resources, [])

/-- Modelled constant from `BKE_library.hh` (not in src): the runtime tag
bit tested by `get_warning`; the exact bit value is immaterial to the
logic. -/
def LIBRARY_TAG_RESYNC_REQUIRED : Nat := 1

/-- Modelled constant from `DNA_ID.h` (not in src): the id tag bit marking a
missing (unreadable / not found) linked data-block. -/
def ID_TAG_MISSING : Nat := 64

/-- Runtime data of a `Library`: carries the runtime `tag` bitfield tested
by `get_warning` (shape from the use sites in
`tree_element_id_library.cc`). -/
structure LibraryRuntime where
  tag : Nat
deriving DecidableEq, Repr

/-- An `ID` datablock header: carries the `tag` bitfield tested by
`get_warning`. -/
structure ID where
  tag : Nat
deriving DecidableEq, Repr

/-- A `Library` datablock: its `id` header and its `runtime` data, the two
fields `TreeElementIDLibrary::get_warning` reads. -/
structure Library where
  id : ID
  runtime : LibraryRuntime
deriving DecidableEq, Repr

/-- The resync warning text returned by `get_warning`. -/
def resync_message : String :=
  "Contains linked library overrides that need to be resynced, updating the library is recommended"

/-- Embeds `TreeElementIDLibrary::get_warning` from
`tree_element_id_library.cc`: tests `library.runtime->tag &
LIBRARY_TAG_RESYNC_REQUIRED` first, then `library.id.tag & ID_TAG_MISSING`,
and otherwise returns the empty string; the method is `const` (it reads the
element and never mutates it), so it embeds as a pure function of the
library. -/
def get_warning (library : Library) : String :=
  if library.runtime.tag &&& LIBRARY_TAG_RESYNC_REQUIRED ≠ 0 then
    resync_message
  else if library.id.tag &&& ID_TAG_MISSING ≠ 0 then
    "Missing library"
  else
    ""

/-- Embeds the scan loop of `_bli_array_findindex` from
`BLI_array_utils` (src/unnamed/part_000): walk the elements upward from
index `i`, returning the first index whose element compares equal to the
probe, else -1. An array of `arr_len` elements of `arr_stride` bytes is
embedded as the list of its elements (element `i` being the stride-byte
chunk at byte offset `i * arr_stride`); `memcmp(..) == 0` on two
stride-byte elements is exactly equality of the chunks. -/
def findindexFrom [DecidableEq α] (p : α) : List α → Nat → Int
  | [], _ => -1
  | x :: xs, i => if x = p then (i : Int) else findindexFrom p xs (i + 1)

/-- Embeds `_bli_array_findindex`: the forward scan starting at index 0. -/
def _bli_array_findindex [DecidableEq α] (arr : List α) (p : α) : Int :=
  findindexFrom p arr 0

/-- Embeds the countdown loop of `_bli_array_rfindindex`
(`for (uint i = arr_len; i-- != 0;)`): test index `i - 1` downwards,
returning the first (i.e. largest) index whose element equals the probe,
else -1. -/
def rfindindexLoop [DecidableEq α] (arr : List α) (p : α) : Nat → Int
  | 0 => -1
  | i + 1 => if arr[i]? = some p then (i : Int) else rfindindexLoop arr p i

/-- Embeds `_bli_array_rfindindex`: the backward scan starting at
`arr_len`. -/
def _bli_array_rfindindex [DecidableEq α] (arr : List α) (p : α) : Int :=
  rfindindexLoop arr p arr.length

/-- One iteration of the `_bli_array_reverse` swap loop body: the three
memcpy through the stack buffer exchange the stride-byte elements at
indices `i` and `j` (the loop only ever runs with both indices in
bounds). -/
def listSwap (l : List α) (i j : Nat) : List α :=
  if h : i < l.length ∧ j < l.length then
    (l.set i (l.get ⟨j, h.2⟩)).set j (l.get ⟨i, h.1⟩)
  else l

/-- Embeds the loop of `_bli_array_reverse` from `BLI_array_utils`: the C
loop runs `i` from 0 while `i < (arr_len / 2) * arr_stride` in steps of
`arr_stride`, i.e. `arr_len / 2` swap iterations exchanging element `i`
with element `arr_len - 1 - i` (`n` is the original element count, `fuel`
the remaining iterations). -/
def reverseLoop (n : Nat) : List α → Nat → Nat → List α
  | l, _, 0 => l
  | l, i, fuel + 1 => reverseLoop n (listSwap l i (n - 1 - i)) (i + 1) fuel

/-- Embeds `_bli_array_reverse` on the element list of the array. -/
def _bli_array_reverse (l : List α) : List α :=
  reverseLoop l.length l 0 (l.length / 2)

/-- Rendering-scope states, modelled from the spec (§4.5): exactly
outside-rendering and inside-rendering. -/
inductive RenderingScopeState where
  | outside
  | inside
deriving DecidableEq, Repr

/-- Modelled from the spec (§4.5): one emission step of the rendering-scope
state machine. A begin-rendering node moves outside→inside, an end-rendering
node moves inside→outside, and emitting a node satisfying the
within-rendering predicate (embedded from src) while outside is a fatal
ordering violation, modelled as `none`; no other node changes the state. -/
def scope_step : RenderingScopeState → VKNodeType → Option RenderingScopeState
  | .outside, .BEGIN_RENDERING => some .inside
  | .inside, .END_RENDERING => some .outside
  | .outside, t => if node_type_is_within_rendering t then none else some .outside
  | .inside, _ => some .inside

/-- Runs the rendering-scope state machine over a node sequence; `none`
signals that a fatal ordering violation was hit at emission time. -/
def run_scope (nodes : List VKNodeType) (s : RenderingScopeState) :
    Option RenderingScopeState :=
  match nodes with
  | [] => some s
  | t :: rest =>
    match scope_step s t with
    | none => none
    | some s2 => run_scope rest s2

end Blender

namespace Blender

/-- Running the scope machine over an appended sequence runs the prefix,
then the suffix from the state the prefix reached. -/
theorem run_scope_append (pre post : List VKNodeType) (s : RenderingScopeState) :
    run_scope (pre ++ post) s =
      (run_scope pre s).bind (run_scope post) := by
  induction pre generalizing s with
  | nil => simp [run_scope]
  | cons t rest ih =>
    simp only [List.cons_append, run_scope]
    cases scope_step s t with
    | none => simp
    | some s2 => simpa using ih s2

/-- C3: the within-rendering predicate holds exactly on CLEAR_ATTACHMENTS and
the four draw variants, and on no other tag of the node type enumeration. -/
theorem within_rendering_exactly_clear_and_draws :
    ∀ t : VKNodeType,
      node_type_is_within_rendering t = true ↔
        (t = .CLEAR_ATTACHMENTS ∨ t = .DRAW ∨ t = .DRAW_INDEXED ∨
         t = .DRAW_INDEXED_INDIRECT ∨ t = .DRAW_INDIRECT) := by
  decide

/-- C4: the rendering predicate holds exactly when the tag is BEGIN_RENDERING,
END_RENDERING, or satisfies the within-rendering predicate. -/
theorem rendering_is_within_plus_boundaries :
    ∀ t : VKNodeType,
      node_type_is_rendering t = true ↔
        (t = .BEGIN_RENDERING ∨ t = .END_RENDERING ∨
         node_type_is_within_rendering t = true) := by
  decide

/-- C7: the textual rendering of the node type enumeration is exhaustive
(every tag, including the UNUSED sentinel, is in the covered list and maps to
a nonempty name) and injective (the names of the tags are pairwise distinct). -/
theorem nodeTypeName_exhaustive_injective :
    (∀ t : VKNodeType, t ∈ allNodeTypes) ∧
    (allNodeTypes.map nodeTypeName).Nodup ∧
    (∀ t : VKNodeType, nodeTypeName t ≠ "") := by
  refine ⟨by decide, by decide, by decide⟩

/-- C1: last-writer-wins in extraction order. Recording an access twice for
the same resource id leaves the tracker entry equal to exactly the second
declared access, independent of the first; instantiated through two
link-extraction calls touching the same buffer (a COPY_BUFFER writing `b`
followed by a FILL_BUFFER on `b`), after which the entry for `b` is exactly
the fill's declared transfer-stage write. -/
theorem tracker_last_writer_wins :
    (∀ (t : VKResourceStateTracker) (r : Nat) (e1 e2 : ResourceStateEntry),
       current_state (record_access (record_access t r e1).2 r e2).2 r = some e2) ∧
    (∀ (t : VKResourceStateTracker) (src b size data : Nat),
       current_state
         (build_links (build_links t (.copyBuffer src b size)).2
            (.fillBuffer b size data)).2 b =
       some ⟨VK_PIPELINE_STAGE_TRANSFER_BIT, VK_ACCESS_TRANSFER_WRITE_BIT, none⟩) := by
  constructor
  · intro t r e1 e2
    simp [current_state, record_access, List.find?]
  · intro t src b size data
    simp [build_links, declared_accesses, declared_entry, current_state,
          record_access, List.find?]

/-- C2: the rendering-scope state machine has exactly the two states
outside/inside, begin-rendering transitions outside→inside, end-rendering
transitions inside→outside, emitting any node satisfying the
within-rendering predicate while outside is the fatal ordering violation
(`none`, never a recoverable state), and in particular appending a DRAW node
to any sequence that leaves the machine outside (no unmatched
BEGIN_RENDERING) is fatal at emission time. -/
theorem rendering_scope_machine_fatal_outside :
    (∀ s : RenderingScopeState, s = .outside ∨ s = .inside) ∧
    scope_step .outside .BEGIN_RENDERING = some .inside ∧
    scope_step .inside .END_RENDERING = some .outside ∧
    (∀ (s : RenderingScopeState) (t : VKNodeType),
       node_type_is_within_rendering t = true → s = .outside →
       scope_step s t = none) ∧
    (∀ pre : List VKNodeType, run_scope pre .outside = some .outside →
       run_scope (pre ++ [.DRAW]) .outside = none) := by
  refine ⟨fun s => by cases s <;> simp, rfl, rfl, ?_, ?_⟩
  · intro s t ht hs
    subst hs
    cases t <;> simp_all [scope_step, node_type_is_within_rendering]
  · intro pre hpre
    rw [run_scope_append, hpre]
    rfl

/-- C2 witness: a balanced begin/end pair leaves the machine outside, and the
following DRAW is a fatal ordering violation. -/
theorem rendering_scope_machine_fatal_outside_witness :
    run_scope ([.BEGIN_RENDERING, .END_RENDERING] ++ [.DRAW]) .outside = none :=
  rendering_scope_machine_fatal_outside.2.2.2.2
    [.BEGIN_RENDERING, .END_RENDERING] (by decide)

/-- C5: every Dependency Link produced by a modelled descriptor's
link-extraction operation has a resource category belonging to the
descriptor's statically declared resource category set. -/
theorem links_within_declared_usages :
    ∀ (t : VKResourceStateTracker) (ci : ModelledCreateInfo),
      ∀ link ∈ (build_links t ci).1, link.category ∈ resource_usages ci := by
  intro t ci link hmem
  cases ci with
  | copyBuffer s d n =>
    simp only [build_links, declared_accesses, List.map_cons, List.map_nil,
      List.mem_cons, List.not_mem_nil, or_false] at hmem
    rcases hmem with h | h <;> simp [h, resource_usages]
  | fillBuffer d n v =>
    simp only [build_links, declared_accesses, List.map_cons, List.map_nil,
      List.mem_cons, List.not_mem_nil, or_false] at hmem
    simp [hmem, resource_usages]

/-- C5 witness: the source-read link of a concrete COPY_BUFFER extraction
has category buffer, inside the descriptor's declared buffer-only set. -/
theorem links_within_declared_usages_witness :
    (⟨1, .read, .buffer⟩ : VKDependencyLink) ∈
      (build_links [] (.copyBuffer 1 2 4)).1 ∧
    VKResourceType.buffer ∈ resource_usages (.copyBuffer 1 2 4) :=
  ⟨by decide,
   links_within_declared_usages [] (.copyBuffer 1 2 4) ⟨1, .read, .buffer⟩
     (by decide)⟩

/-- C6: populating node data is deterministic and idempotent — the node data
produced from a create-info does not depend on the tracker state (so every
call with the same create-info yields the same data) — and it is pure: it
returns the tracker unchanged and emits no commands. -/
theorem set_node_data_pure_deterministic :
    ∀ (ci : ModelledCreateInfo) (r1 r2 : VKResourceStateTracker),
      (set_node_data ci r1).1 = (set_node_data ci r2).1 ∧
      (set_node_data ci r1).2.1 = r1 ∧
      (set_node_data ci r1).2.2 = [] := by
  intro ci r1 r2
  cases ci <;> exact ⟨rfl, rfl, rfl⟩

/-- If the probe is not among the elements, the forward scan returns -1. -/
theorem findindexFrom_of_not_mem [DecidableEq α] (p : α) (arr : List α) :
    ∀ i : Nat, p ∉ arr → findindexFrom p arr i = -1 := by
  induction arr with
  | nil => intro i _; rfl
  | cons x xs ih =>
    intro i h
    have hx : ¬x = p := fun hh => h (by simp [hh])
    rw [findindexFrom, if_neg hx]
    exact ih (i + 1) fun hm => h (List.mem_cons_of_mem _ hm)

/-- If the forward scan returns -1, the probe is not among the elements. -/
theorem not_mem_of_findindexFrom [DecidableEq α] (p : α) (arr : List α) :
    ∀ i : Nat, findindexFrom p arr i = -1 → p ∉ arr := by
  induction arr with
  | nil => intro i _ h; simp at h
  | cons x xs ih =>
    intro i h hmem
    rw [findindexFrom] at h
    by_cases hx : x = p
    · rw [if_pos hx] at h; omega
    · rw [if_neg hx] at h
      rcases List.mem_cons.1 hmem with hpx | hm
      · exact hx hpx.symm
      · exact ih (i + 1) h hm

/-- A non-negative result of the forward scan is a matching index preceded
by no matching index. -/
theorem findindexFrom_pos [DecidableEq α] (p : α) (arr : List α) :
    ∀ i k : Nat, findindexFrom p arr i = (k : Int) →
      i ≤ k ∧ arr[k - i]? = some p ∧ ∀ m < k - i, arr[m]? ≠ some p := by
  induction arr with
  | nil => intro i k h; rw [findindexFrom] at h; omega
  | cons x xs ih =>
    intro i k h
    rw [findindexFrom] at h
    by_cases hx : x = p
    · rw [if_pos hx] at h
      have hik : i = k := by omega
      subst hik
      exact ⟨le_refl i, by simp [Nat.sub_self, hx], fun m hm => by omega⟩
    · rw [if_neg hx] at h
      obtain ⟨h1, h2, h3⟩ := ih (i + 1) k h
      refine ⟨by omega, ?_, ?_⟩
      · have hki : k - i = (k - (i + 1)) + 1 := by omega
        rw [hki]; simpa using h2
      · intro m hm
        match m with
        | 0 => simpa using hx
        | m + 1 =>
          have : m < k - (i + 1) := by omega
          simpa using h3 m this

/-- The forward scan returns the first matching index, offset by the start
index. -/
theorem findindexFrom_first [DecidableEq α] (p : α) (arr : List α) :
    ∀ i j : Nat, arr[j]? = some p → (∀ m < j, arr[m]? ≠ some p) →
      findindexFrom p arr i = ((i + j : Nat) : Int) := by
  induction arr with
  | nil => intro i j h _; simp at h
  | cons x xs ih =>
    intro i j h hmin
    rw [findindexFrom]
    match j with
    | 0 =>
      have hx : x = p := by simpa using h
      rw [if_pos hx]
      norm_num
    | j + 1 =>
      have hx : ¬x = p := by simpa using hmin 0 (by omega)
      rw [if_neg hx]
      have hrec := ih (i + 1) j (by simpa using h)
        (fun m hm => by simpa using hmin (m + 1) (by omega))
      rw [hrec]
      congr 1
      omega

/-- If no index below `n` matches, the backward scan from `n` returns -1. -/
theorem rfindindexLoop_of_none [DecidableEq α] (arr : List α) (p : α) :
    ∀ n : Nat, (∀ j < n, arr[j]? ≠ some p) → rfindindexLoop arr p n = -1 := by
  intro n
  induction n with
  | zero => intro _; rfl
  | succ m ih =>
    intro h
    rw [rfindindexLoop, if_neg (h m (by omega))]
    exact ih fun j hj => h j (by omega)

/-- If the backward scan from `n` returns -1, no index below `n` matches. -/
theorem none_of_rfindindexLoop [DecidableEq α] (arr : List α) (p : α) :
    ∀ n : Nat, rfindindexLoop arr p n = -1 → ∀ j < n, arr[j]? ≠ some p := by
  intro n
  induction n with
  | zero => intro _ j hj; omega
  | succ m ih =>
    intro h j hj
    rw [rfindindexLoop] at h
    by_cases hm : arr[m]? = some p
    · rw [if_pos hm] at h; omega
    · rw [if_neg hm] at h
      by_cases hjm : j = m
      · exact hjm ▸ hm
      · exact ih h j (by omega)

/-- A non-negative result of the backward scan from `n` is a matching index
below `n` followed (below `n`) by no matching index. -/
theorem rfindindexLoop_pos [DecidableEq α] (arr : List α) (p : α) :
    ∀ n k : Nat, rfindindexLoop arr p n = (k : Int) →
      k < n ∧ arr[k]? = some p ∧ ∀ m, k < m → m < n → arr[m]? ≠ some p := by
  intro n
  induction n with
  | zero => intro k h; rw [rfindindexLoop] at h; omega
  | succ nn ih =>
    intro k h
    rw [rfindindexLoop] at h
    by_cases hm : arr[nn]? = some p
    · rw [if_pos hm] at h
      have hk : nn = k := by omega
      subst hk
      exact ⟨by omega, hm, fun m h1 h2 => by omega⟩
    · rw [if_neg hm] at h
      obtain ⟨h1, h2, h3⟩ := ih k h
      refine ⟨by omega, h2, fun m hkm hmn => ?_⟩
      by_cases hmm : m = nn
      · exact hmm ▸ hm
      · exact h3 m hkm (by omega)

/-- The backward scan from `n` returns the last matching index below `n`. -/
theorem rfindindexLoop_last [DecidableEq α] (arr : List α) (p : α) :
    ∀ n k : Nat, k < n → arr[k]? = some p →
      (∀ m, k < m → m < n → arr[m]? ≠ some p) →
      rfindindexLoop arr p n = (k : Int) := by
  intro n
  induction n with
  | zero => intro k hk _ _; omega
  | succ nn ih =>
    intro k hk hkp hmax
    rw [rfindindexLoop]
    by_cases hkn : k = nn
    · subst hkn; rw [if_pos hkp]
    · rw [if_neg (hmax nn (by omega) (by omega))]
      exact ih k (by omega) hkp fun m h1 h2 => hmax m h1 (by omega)

/-- C8: `_bli_array_findindex` returns -1 exactly when no element is
byte-for-byte equal to the probe, and returns a non-negative index exactly
when that index matches and no smaller index does (the smallest matching
index); `_bli_array_rfindindex` returns -1 under the same condition and
returns a non-negative index exactly when that index matches and no larger
index does (the largest matching index). Elements are the stride-byte
chunks of the array; `memcmp == 0` is chunk equality. -/
theorem findindex_rfindindex_spec [DecidableEq α] (arr : List α) (p : α) :
    (_bli_array_findindex arr p = -1 ↔ ∀ j : Nat, arr[j]? ≠ some p) ∧
    (∀ k : Nat, _bli_array_findindex arr p = (k : Int) ↔
       (arr[k]? = some p ∧ ∀ m < k, arr[m]? ≠ some p)) ∧
    (_bli_array_rfindindex arr p = -1 ↔ ∀ j : Nat, arr[j]? ≠ some p) ∧
    (∀ k : Nat, _bli_array_rfindindex arr p = (k : Int) ↔
       (arr[k]? = some p ∧ ∀ m : Nat, k < m → arr[m]? ≠ some p)) := by
  have hmem : (∀ j : Nat, arr[j]? ≠ some p) ↔ p ∉ arr := by
    rw [List.mem_iff_getElem?]
    push_neg
    constructor
    · intro h n; exact h n
    · intro h n; exact h n
  refine ⟨?_, ?_, ?_, ?_⟩
  · constructor
    · intro h
      exact hmem.2 (not_mem_of_findindexFrom p arr 0 h)
    · intro h
      exact findindexFrom_of_not_mem p arr 0 (hmem.1 h)
  · intro k
    constructor
    · intro h
      obtain ⟨_, h2, h3⟩ := findindexFrom_pos p arr 0 k h
      simpa using ⟨h2, h3⟩
    · rintro ⟨h1, h2⟩
      have := findindexFrom_first p arr 0 k h1 h2
      simpa using this
  · constructor
    · intro h j
      by_cases hj : j < arr.length
      · exact none_of_rfindindexLoop arr p arr.length h j hj
      · rw [List.getElem?_eq_none (by omega)]; simp
    · intro h
      exact rfindindexLoop_of_none arr p arr.length fun j _ => h j
  · intro k
    constructor
    · intro h
      obtain ⟨h1, h2, h3⟩ := rfindindexLoop_pos arr p arr.length k h
      refine ⟨h2, fun m hm => ?_⟩
      by_cases hmlen : m < arr.length
      · exact h3 m hm hmlen
      · rw [List.getElem?_eq_none (by omega)]; simp
    · rintro ⟨h1, h2⟩
      have hk : k < arr.length := by
        rcases List.getElem?_eq_some.1 h1 with ⟨hlt, _⟩
        exact hlt
      exact rfindindexLoop_last arr p arr.length k hk h1
        fun m hm _ => h2 m hm

/-- C8 witness: on a concrete array with a duplicate element, the forward
scan returns the smallest matching index and the backward scan the
largest. -/
theorem findindex_rfindindex_spec_witness :
    _bli_array_findindex ([5, 7, 5] : List Nat) 5 = ((0 : Nat) : Int) ∧
    _bli_array_rfindindex ([5, 7, 5] : List Nat) 5 = ((2 : Nat) : Int) := by
  constructor
  · exact ((findindex_rfindindex_spec ([5, 7, 5] : List Nat) 5).2.1 0).2
      ⟨by decide, fun m hm => absurd hm (by omega)⟩
  · refine ((findindex_rfindindex_spec ([5, 7, 5] : List Nat) 5).2.2.2 2).2
      ⟨by decide, fun m hm => ?_⟩
    rw [List.getElem?_eq_none]
    · simp
    · simp only [List.length_cons, List.length_nil]
      omega

/-- C10: `get_warning` gives the resync warning priority over the
missing-library warning (it returns the resync message whenever the
resync-required runtime tag bit is set, even if the missing bit is also
set), returns "Missing library" exactly when resync is not required and the
missing bit is set, and returns the empty string otherwise; as a pure
function of the library it mutates nothing. -/
theorem get_warning_priority (lib : Library) :
    (lib.runtime.tag &&& LIBRARY_TAG_RESYNC_REQUIRED ≠ 0 →
       get_warning lib = resync_message) ∧
    (get_warning lib = "Missing library" ↔
       (lib.runtime.tag &&& LIBRARY_TAG_RESYNC_REQUIRED = 0 ∧
        lib.id.tag &&& ID_TAG_MISSING ≠ 0)) ∧
    (lib.runtime.tag &&& LIBRARY_TAG_RESYNC_REQUIRED = 0 →
       lib.id.tag &&& ID_TAG_MISSING = 0 → get_warning lib = "") := by
  unfold get_warning
  by_cases h1 : lib.runtime.tag &&& LIBRARY_TAG_RESYNC_REQUIRED ≠ 0
  · rw [if_pos h1]
    refine ⟨fun _ => rfl, ?_, fun hh _ => absurd hh h1⟩
    constructor
    · intro hh
      exact absurd hh (by decide)
    · rintro ⟨hh, _⟩
      exact absurd hh h1
  · rw [if_neg h1]
    push_neg at h1
    by_cases h2 : lib.id.tag &&& ID_TAG_MISSING ≠ 0
    · rw [if_pos h2]
      exact ⟨fun hh => absurd h1 hh, by simp [h1, h2], fun _ hh => absurd hh h2⟩
    · rw [if_neg h2]
      push_neg at h2
      refine ⟨fun hh => absurd h1 hh, ?_, fun _ _ => rfl⟩
      constructor
      · intro hh
        exact absurd hh (by decide)
      · rintro ⟨_, hh⟩
        exact absurd h2 hh

/-- C10 witness: with both the resync-required bit and the missing bit set,
the resync message wins. -/
theorem get_warning_priority_witness :
    get_warning ⟨⟨64⟩, ⟨1⟩⟩ = resync_message :=
  (get_warning_priority ⟨⟨64⟩, ⟨1⟩⟩).1 (by decide)

/-- Swapping two elements preserves the length. -/
theorem listSwap_length (l : List α) (i j : Nat) :
    (listSwap l i j).length = l.length := by
  unfold listSwap
  split <;> simp

/-- Element lookup after an in-bounds swap. -/
theorem listSwap_getElem? (l : List α) (i j k : Nat) (hi : i < l.length)
    (hj : j < l.length) :
    (listSwap l i j)[k]? =
      if k = i then l[j]? else if k = j then l[i]? else l[k]? := by
  rw [listSwap, dif_pos ⟨hi, hj⟩]
  simp only [List.get_eq_getElem]
  by_cases hkj : k = j
  · subst hkj
    rw [List.getElem?_set_eq_of_lt _ (by simpa using hj)]
    by_cases hki : k = i
    · subst hki
      rw [if_pos rfl]
      exact (List.getElem?_eq_getElem hi).symm
    · rw [if_neg hki, if_pos rfl]
      exact (List.getElem?_eq_getElem hi).symm
  · rw [List.getElem?_set_ne fun hh => hkj hh.symm]
    by_cases hki : k = i
    · subst hki
      rw [List.getElem?_set_eq_of_lt _ hi, if_pos rfl,
        List.getElem?_eq_getElem hj]
    · rw [List.getElem?_set_ne fun hh => hki hh.symm, if_neg hki, if_neg hkj]

/-- The reverse loop preserves the length. -/
theorem reverseLoop_length (n : Nat) :
    ∀ (fuel : Nat) (l : List α) (i : Nat),
      (reverseLoop n l i fuel).length = l.length := by
  intro fuel
  induction fuel with
  | zero => intro l i; rfl
  | succ f ih => intro l i; rw [reverseLoop, ih, listSwap_length]

/-- Loop invariant of the reverse loop: positions already visited from
either end hold the mirrored element, the rest are untouched. -/
theorem reverseLoop_getElem? (n : Nat) :
    ∀ (fuel : Nat) (l : List α) (i : Nat), l.length = n → i + fuel ≤ n / 2 →
      ∀ k : Nat,
        (reverseLoop n l i fuel)[k]? =
          if (i ≤ k ∧ k < i + fuel) ∨ (n - i - fuel ≤ k ∧ k < n - i) then
            l[n - 1 - k]?
          else l[k]? := by
  intro fuel
  induction fuel with
  | zero =>
    intro l i hlen hle k
    rw [reverseLoop, if_neg (by omega)]
  | succ f ih =>
    intro l i hlen hle k
    have hi : i < l.length := by omega
    have hj : n - 1 - i < l.length := by omega
    rw [reverseLoop,
      ih (listSwap l i (n - 1 - i)) (i + 1)
        (by rw [listSwap_length]; exact hlen) (by omega) k]
    by_cases hC :
        (i + 1 ≤ k ∧ k < i + 1 + f) ∨ (n - (i + 1) - f ≤ k ∧ k < n - (i + 1))
    · rw [if_pos hC, if_pos (by omega),
        listSwap_getElem? l i (n - 1 - i) (n - 1 - k) hi hj,
        if_neg (by omega), if_neg (by omega)]
    · rw [if_neg hC]
      by_cases hki : k = i
      · rw [if_pos (by omega), listSwap_getElem? l i (n - 1 - i) k hi hj,
          if_pos hki, hki]
      · by_cases hkj : k = n - 1 - i
        · rw [if_pos (by omega), listSwap_getElem? l i (n - 1 - i) k hi hj,
            if_neg hki, if_pos hkj]
          have hik : n - 1 - k = i := by omega
          rw [hik]
        · rw [if_neg (by omega), listSwap_getElem? l i (n - 1 - i) k hi hj,
            if_neg hki, if_neg hkj]

/-- A single application of the reverse places at index `k` the element
originally at the mirrored index. -/
theorem reverse_getElem? (l : List α) (k : Nat) (hk : k < l.length) :
    (_bli_array_reverse l)[k]? = l[l.length - 1 - k]? := by
  unfold _bli_array_reverse
  rw [reverseLoop_getElem? l.length (l.length / 2) l 0 rfl (by omega) k]
  by_cases h :
      (0 ≤ k ∧ k < 0 + l.length / 2) ∨
      (l.length - 0 - l.length / 2 ≤ k ∧ k < l.length - 0)
  · rw [if_pos h]
  · rw [if_neg h]
    have hmid : l.length - 1 - k = k := by omega
    rw [hmid]

/-- The reverse preserves the length. -/
theorem reverse_length (l : List α) :
    (_bli_array_reverse l).length = l.length := by
  unfold _bli_array_reverse
  rw [reverseLoop_length]

/-- C9: `_bli_array_reverse` is an involution (applying it twice restores
the original contents, for every length including 0 and 1), it preserves
the length, and a single application places element `i` at index
`arr_len - 1 - i`. Elements are the stride-byte chunks of the array. -/
theorem reverse_involution_and_placement (arr : List α) :
    _bli_array_reverse (_bli_array_reverse arr) = arr ∧
    (_bli_array_reverse arr).length = arr.length ∧
    ∀ i : Nat, i < arr.length →
      (_bli_array_reverse arr)[arr.length - 1 - i]? = arr[i]? := by
  have hlen := reverse_length arr
  refine ⟨?_, hlen, ?_⟩
  · apply List.ext_getElem?
    intro k
    by_cases hk : k < arr.length
    · have hk2 : k < (_bli_array_reverse arr).length := by rw [hlen]; exact hk
      rw [reverse_getElem? (_bli_array_reverse arr) k hk2, hlen]
      have hk3 : arr.length - 1 - k < arr.length := by omega
      rw [reverse_getElem? arr (arr.length - 1 - k) hk3]
      have hkk : arr.length - 1 - (arr.length - 1 - k) = k := by omega
      rw [hkk]
    · have h1 : (_bli_array_reverse (_bli_array_reverse arr)).length ≤ k := by
        rw [reverse_length, reverse_length]; omega
      rw [List.getElem?_eq_none h1, List.getElem?_eq_none (by omega)]
  · intro i hi
    have h1 : arr.length - 1 - i < arr.length := by omega
    rw [reverse_getElem? arr (arr.length - 1 - i) h1]
    have hii : arr.length - 1 - (arr.length - 1 - i) = i := by omega
    rw [hii]

/-- C9 witness: reversing a concrete three-element array places element 0 at
index 2. -/
theorem reverse_involution_witness :
    (_bli_array_reverse ([0, 1, 2] : List Nat))[2]? = some 0 := by
  have h := (reverse_involution_and_placement ([0, 1, 2] : List Nat)).2.2 0
    (by decide)
  simpa using h

end Blender
